import Mathlib

/-!
# Verification of the nomad CLI cache-scanning logic

Shallow embedding of `src/nomad/__main__.py`: the cache enumerator
(`get_cache_data`), the `cache inspect`, `cache search` and `cache rm`
subcommands, and the `geocode` command wrapper.

Modelling conventions:
* A parsed JSON document is a `Json` value; JSON numbers are modelled as
  integers (no claim depends on float rendering).
* A cache directory is the list of its `*.json` files in glob order, each
  paired with its parsed document (`FileSys`); the claims assume the files
  parse, as the spec leaves parse failures undefined.
* Python exceptions escaping a piece of code are modelled with `Option` /
  explicit success flags: `none` / `false` marks a raised `TypeError`,
  `IndexError` or `AttributeError`.
* The external regex engine (`re.search` with `re.IGNORECASE`) and geocoder
  (`osmnx.geocoder.geocode`) are abstracted as function parameters, since they
  belong to the wrapped libraries, not to this repository.
-/

namespace Nomad

/-- Parsed JSON documents, as produced by `json.load`. Numbers are modelled as
integers. -/
inductive Json where
  | null : Json
  | bool : Bool → Json
  | num : Int → Json
  | str : String → Json
  | arr : List Json → Json
  | obj : List (String × Json) → Json

/-- A cache directory: the `*.json` files under the cache root in glob order,
each with its parsed document. -/
abbrev FileSys := List (String × Json)

/-- Python `len` on a parsed JSON value: defined for strings, lists and dicts;
`none` models the `TypeError` raised on `None`, booleans and numbers. -/
def pythonLen : Json → Option Nat
  | .str s => some s.length
  | .arr l => some l.length
  | .obj kvs => some kvs.length
  | _ => none

/-- The default filter of `get_cache_data`: `lambda x: len(x) != 0`. -/
def defaultFilter (j : Json) : Option Bool :=
  (pythonLen j).map (fun n => decide (n ≠ 0))

/-- `json_data[0] if isinstance(json_data, list) else json_data`;
`none` models the `IndexError` raised when indexing an empty list. -/
def pyNormalize : Json → Option Json
  | .arr l => l.head?
  | j => some j

/-- The generator body of `get_cache_data`: the `(path, document)` pairs it
yields, in glob order, and whether the iteration finished without raising
(`false`: a `TypeError` from the filter or an `IndexError` from the
normalization stops the iteration early; the pairs already yielded stand). -/
def cacheGen (filt : Json → Option Bool) : FileSys → List (String × Json) × Bool
  | [] => ([], true)
  | (p, j) :: rest =>
    match filt j with
    | none => ([], false)
    | some false => cacheGen filt rest
    | some true =>
      match pyNormalize j with
      | none => ([], false)
      | some d =>
        let r := cacheGen filt rest
        ((p, d) :: r.1, r.2)

/-- `get_cache_data` consumed to exhaustion: `none` models an exception
escaping the generator. -/
def getCacheData (filt : Json → Option Bool) (fs : FileSys) :
    Option (List (String × Json)) :=
  match cacheGen filt fs with
  | (l, true) => some l
  | (_, false) => none

/-- Python `f"{s:<12}"`-style left justification to a minimum width. -/
def leftJust (s : String) (w : Nat) : String :=
  s ++ String.mk (List.replicate (w - s.length) ' ')

/-- Python `str()` of a scalar JSON value as interpolated into a field line
(`arr`/`obj` never reach this rendering: the commands skip them). -/
def pyStr : Json → String
  | .null => "None"
  | .bool true => "True"
  | .bool false => "False"
  | .num n => toString n
  | .str s => s
  | .arr _ => ""
  | .obj _ => ""

/-- The scalar check `type(value) not in {dict, list}`. -/
def isScalar : Json → Bool
  | .arr _ => false
  | .obj _ => false
  | _ => true

/-- The title line `f"{'file_path':<12} {data_path}\n"`. -/
def blockTitle (p : String) : String :=
  leftJust "file_path" 12 ++ " " ++ p ++ "\n"

/-- The `contents` accumulation loop shared by `inspect_cache` and
`search_cache`: one `f"{key:<12} {value}\n"` line per scalar field, in
document key order; dict- and list-valued fields contribute nothing. -/
def blockContents : List (String × Json) → String
  | [] => ""
  | (k, v) :: rest =>
    (if isScalar v then leftJust k 12 ++ " " ++ pyStr v ++ "\n" else "") ++
      blockContents rest

/-- `data.items()`: `none` models the `AttributeError` raised when the
normalized document is not a dict. -/
def itemsOf : Json → Option (List (String × Json))
  | .obj kvs => some kvs
  | _ => none

/-- The loop of `inspect_cache` over the yielded entries: one printed block
(title plus contents) per entry. -/
def inspectLoop : List (String × Json) → Option (List String)
  | [] => some []
  | (p, d) :: rest =>
    match itemsOf d with
    | none => none
    | some kvs =>
      match inspectLoop rest with
      | none => none
      | some blocks => some ((blockTitle p ++ blockContents kvs) :: blocks)

/-- Output of `cache inspect`: the list of blocks it prints, one per `print`
call; `none` models an uncaught exception. -/
def inspectBlocks (fs : FileSys) : Option (List String) :=
  (getCacheData defaultFilter fs).bind inspectLoop

/-- The loop of `search_cache` over the yielded entries. `m q text` stands for
the external regex engine call `re.search(q, text, re.IGNORECASE)` being
truthy; the text handed to it is exactly the accumulated `contents`, never the
title line. -/
def searchLoop (m : String → String → Bool) (q : String) :
    List (String × Json) → Option (List String)
  | [] => some []
  | (p, d) :: rest =>
    match itemsOf d with
    | none => none
    | some kvs =>
      match searchLoop m q rest with
      | none => none
      | some blocks =>
        some (if m q (blockContents kvs) then
          (blockTitle p ++ blockContents kvs) :: blocks else blocks)

/-- Output of `cache search QUERY`. -/
def searchBlocks (m : String → String → Bool) (q : String) (fs : FileSys) :
    Option (List String) :=
  (getCacheData defaultFilter fs).bind (searchLoop m q)

/-- Delete the listed paths from the directory. -/
def applyDeletions (fs : FileSys) (paths : List String) : FileSys :=
  fs.filter (fun e => !(paths.contains e.1))

/-- The `cache rm` command: returns the paths it unlinks (echoed in order),
whether the run finished without an exception, and the directory afterwards.
`empty` and `force` are the two flags; `confirm` is the user's answer to the
`click.confirm` prompt. Without `--force`, declining the prompt raises
`click.Abort`, which ends the command with no deletion. The `--empty` branch
builds its generator with the default filter; the plain branch passes
`lambda x: True`. -/
def removeCacheRun (empty force confirm : Bool) (fs : FileSys) :
    List String × Bool × FileSys :=
  let filt := if empty then defaultFilter else fun _ => some true
  if force || confirm then
    let r := cacheGen filt fs
    let del := r.1.map (fun e => e.1)
    (del, r.2, applyDeletions fs del)
  else
    ([], true, applyDeletions fs [])

/-- `cache inspect` as a state transformer on the directory: the command body
contains no `unlink`, so its filesystem effect is deleting the empty set of
paths. -/
def inspectCacheRun (fs : FileSys) : Option (List String) × FileSys :=
  (inspectBlocks fs, applyDeletions fs [])

/-- `cache search` as a state transformer on the directory: the command body
contains no `unlink`, so its filesystem effect is deleting the empty set of
paths. -/
def searchCacheRun (m : String → String → Bool) (q : String) (fs : FileSys) :
    Option (List String) × FileSys :=
  (searchBlocks m q fs, applyDeletions fs [])

/-- The `geocode` command. `geocoder` stands for `osmnx.geocoder.geocode`,
returning coordinates or the message of an `InsufficientResponseError`; `fmt`
renders the coordinates according to the `pretty_print` flag (float formatting
belongs to the abstracted call site). `Except.ok` is the printed result;
`Except.error` models `sys.exit(e)`, a non-zero exit carrying the message. -/
def geocodeCmd {α : Type} (geocoder : String → Except String α)
    (fmt : Bool → α → String) (dryRun pretty : Bool) (location : String) :
    Except String String :=
  if dryRun then Except.ok location
  else
    match geocoder location with
    | Except.ok g => Except.ok (fmt pretty g)
    | Except.error e => Except.error e

/-- Python truthiness of a parsed JSON value; the spec defines "empty" as the
parsed document being falsy. -/
def pyTruthy : Json → Bool
  | .null => false
  | .bool b => b
  | .num n => decide (n ≠ 0)
  | .str s => decide (s ≠ "")
  | .arr l => !l.isEmpty
  | .obj kvs => !kvs.isEmpty

/-- The spec's data model for a cached response file: a single object, or a
list that is empty or whose first element is the object of interest. -/
def wfDoc : Json → Bool
  | .obj _ => true
  | .arr [] => true
  | .arr (.obj _ :: _) => true
  | _ => false

/-- The fields of a well-formed document after normalization, as a total
function (used to state expected outputs). -/
def objItems : Json → List (String × Json)
  | .obj kvs => kvs
  | .arr (.obj kvs :: _) => kvs
  | _ => []

/-- Concatenation of a list of strings, used to state the expected shape of a
block's contents. -/
def concatAll : List String → String
  | [] => ""
  | s :: rest => s ++ concatAll rest

/-! ## Helper lemmas -/

/-- On a document of the data model, the default filter never raises and
decides exactly Python truthiness. -/
theorem defaultFilter_wf (j : Json) (h : wfDoc j = true) :
    defaultFilter j = some (pyTruthy j) := by
  cases j with
  | obj kvs => cases kvs <;> simp [defaultFilter, pythonLen, pyTruthy]
  | arr l =>
    cases l with
    | nil => simp [defaultFilter, pythonLen, pyTruthy]
    | cons a t => simp [defaultFilter, pythonLen, pyTruthy]
  | null => simp [wfDoc] at h
  | bool b => simp [wfDoc] at h
  | num n => simp [wfDoc] at h
  | str s => simp [wfDoc] at h

/-- On a truthy document of the data model, normalization never raises and
returns the object of interest. -/
theorem pyNormalize_wf (j : Json) (h : wfDoc j = true) (ht : pyTruthy j = true) :
    pyNormalize j = some (Json.obj (objItems j)) := by
  cases j with
  | obj kvs => simp [pyNormalize, objItems]
  | arr l =>
    cases l with
    | nil => simp [pyTruthy] at ht
    | cons a t =>
      cases a <;> simp_all [wfDoc, pyNormalize, objItems]
  | null => simp [wfDoc] at h
  | bool b => simp [wfDoc] at h
  | num n => simp [wfDoc] at h
  | str s => simp [wfDoc] at h

/-- On a directory of data-model documents, the enumerator with the default
filter finishes cleanly and yields exactly the truthy files, each normalized
to its object of interest. -/
theorem cacheGen_wf (fs : FileSys) (h : ∀ e ∈ fs, wfDoc e.2 = true) :
    cacheGen defaultFilter fs =
      ((fs.filter (fun e => pyTruthy e.2)).map
        (fun e => (e.1, Json.obj (objItems e.2))), true) := by
  induction fs with
  | nil => rfl
  | cons e rest ih =>
    obtain ⟨p, j⟩ := e
    have hj : wfDoc j = true := h (p, j) (List.mem_cons_self _ _)
    have hrest : ∀ e ∈ rest, wfDoc e.2 = true :=
      fun e he => h e (List.mem_cons_of_mem _ he)
    cases ht : pyTruthy j with
    | false =>
      simp [cacheGen, defaultFilter_wf j hj, ht, List.filter_cons, ih hrest]
    | true =>
      simp [cacheGen, defaultFilter_wf j hj, ht, pyNormalize_wf j hj ht,
        List.filter_cons, ih hrest]

/-- `getCacheData` version of `cacheGen_wf`. -/
theorem getCacheData_wf (fs : FileSys) (h : ∀ e ∈ fs, wfDoc e.2 = true) :
    getCacheData defaultFilter fs =
      some ((fs.filter (fun e => pyTruthy e.2)).map
        (fun e => (e.1, Json.obj (objItems e.2)))) := by
  simp [getCacheData, cacheGen_wf fs h]

/-- The inspect loop on entries that are all dicts: one block per entry. -/
theorem inspectLoop_objs (l : List (String × List (String × Json))) :
    inspectLoop (l.map (fun e => (e.1, Json.obj e.2))) =
      some (l.map (fun e => blockTitle e.1 ++ blockContents e.2)) := by
  induction l with
  | nil => rfl
  | cons e rest ih => simp [inspectLoop, itemsOf, ih]

/-- The search loop on entries that are all dicts: a block is kept exactly
when the matcher accepts that entry's contents. -/
theorem searchLoop_objs (m : String → String → Bool) (q : String)
    (l : List (String × List (String × Json))) :
    searchLoop m q (l.map (fun e => (e.1, Json.obj e.2))) =
      some ((l.filter (fun e => m q (blockContents e.2))).map
        (fun e => blockTitle e.1 ++ blockContents e.2)) := by
  induction l with
  | nil => rfl
  | cons e rest ih =>
    cases hm : m q (blockContents e.2) <;>
      simp [searchLoop, itemsOf, ih, List.filter_cons, hm]

/-- `cache inspect` on a directory of data-model documents prints one block,
title plus contents, per truthy file. -/
theorem inspectBlocks_wf (fs : FileSys) (h : ∀ e ∈ fs, wfDoc e.2 = true) :
    inspectBlocks fs =
      some ((fs.filter (fun e => pyTruthy e.2)).map
        (fun e => blockTitle e.1 ++ blockContents (objItems e.2))) := by
  have hmap :
      (fs.filter (fun e => pyTruthy e.2)).map
          (fun e => (e.1, Json.obj (objItems e.2))) =
        ((fs.filter (fun e => pyTruthy e.2)).map
            (fun e => (e.1, objItems e.2))).map
          (fun e => (e.1, Json.obj e.2)) := by
    simp [List.map_map]
  simp only [inspectBlocks, getCacheData_wf fs h, hmap, Option.bind]
  rw [inspectLoop_objs]
  simp [List.map_map, Function.comp]

/-- Deleting no paths leaves the directory unchanged. -/
theorem applyDeletions_nil (fs : FileSys) : applyDeletions fs [] = fs := by
  simp [applyDeletions]

/-- When the default filter accepts a document, normalization cannot raise. -/
theorem pyNormalize_isSome_of_filter (j : Json)
    (hj : defaultFilter j = some true) : (pyNormalize j).isSome = true := by
  cases j with
  | arr l =>
    cases l with
    | nil => simp [defaultFilter, pythonLen] at hj
    | cons a t => rfl
  | null => rfl
  | bool b => rfl
  | num n => rfl
  | str s => rfl
  | obj kvs => rfl

/-- If `len` is defined on every document, the default-filter enumeration
finishes without an exception. -/
theorem cacheGen_ok_of_len (fs : FileSys)
    (h : ∀ e ∈ fs, (pythonLen e.2).isSome = true) :
    (cacheGen defaultFilter fs).2 = true := by
  induction fs with
  | nil => rfl
  | cons e rest ih =>
    obtain ⟨p, j⟩ := e
    have hlen : (pythonLen j).isSome = true := h (p, j) (List.mem_cons_self _ _)
    have hrest : ∀ e ∈ rest, (pythonLen e.2).isSome = true :=
      fun e he => h e (List.mem_cons_of_mem _ he)
    rcases hb : defaultFilter j with _ | b
    · exfalso
      rcases hpl : pythonLen j with _ | n
      · rw [hpl] at hlen; simp at hlen
      · rw [defaultFilter, hpl] at hb; simp at hb
    · cases b with
      | false => simp [cacheGen, hb, ih hrest]
      | true =>
        have hn := pyNormalize_isSome_of_filter j hb
        rcases hd : pyNormalize j with _ | d
        · rw [hd] at hn; simp at hn
        · simp [cacheGen, hb, hd, ih hrest]

/-! ## Claims -/

/-- Input exhibiting the C1 divergence: one empty cached file and one
non-empty cached file. -/
def fsC1 : FileSys :=
  [("empty.json", Json.obj []), ("full.json", Json.obj [("k", Json.str "v")])]

/-- C1 (code evaluation at the failing input): `cache rm --force --empty`
builds its generator with the default `len(x) != 0` filter, which selects the
NON-empty files, so it deletes `full.json` and leaves the empty `empty.json`
on disk — the opposite of the claim, of the spec, and of the command's own
prompt text ("only empty JSON cached data"). -/
theorem rm_force_empty_inverted :
    removeCacheRun true true true fsC1 =
      (["full.json"], true, [("empty.json", Json.obj [])]) := rfl

/-- C2: on a directory of data-model documents, `cache inspect` prints exactly
one block per file with a non-empty (truthy) parsed document, and no block for
any empty one. -/
theorem inspect_block_count (fs : FileSys) (h : ∀ e ∈ fs, wfDoc e.2 = true) :
    Option.map List.length (inspectBlocks fs) =
      some ((fs.filter (fun e => pyTruthy e.2)).length) := by
  simp [inspectBlocks_wf fs h]

/-- Witness for `inspect_block_count`: three files, one non-empty. -/
theorem inspect_block_count_witness :
    Option.map List.length (inspectBlocks
      [("a.json", Json.obj []), ("b.json", Json.obj [("k", Json.str "v")]),
        ("c.json", Json.arr [])]) =
      some (([("a.json", Json.obj []),
        ("b.json", Json.obj [("k", Json.str "v")]),
        ("c.json", Json.arr [])].filter (fun e => pyTruthy e.2)).length) :=
  inspect_block_count _ (by decide)

/-- C3: for every regex engine `m`, query and directory of data-model
documents, `cache search` emits a document's block exactly when the engine
accepts the accumulated field lines of that document; the matched text is
`blockContents` of the fields alone — the `blockTitle` path line is only
prepended to the output afterwards, never part of the match target. -/
theorem search_match_iff (m : String → String → Bool) (q : String)
    (fs : FileSys) (h : ∀ e ∈ fs, wfDoc e.2 = true) :
    searchBlocks m q fs =
      some (((((fs.filter (fun e => pyTruthy e.2)).map
          (fun e => (e.1, objItems e.2))).filter
            (fun e => m q (blockContents e.2))).map
        (fun e => blockTitle e.1 ++ blockContents e.2))) := by
  have hmap :
      (fs.filter (fun e => pyTruthy e.2)).map
          (fun e => (e.1, Json.obj (objItems e.2))) =
        ((fs.filter (fun e => pyTruthy e.2)).map
            (fun e => (e.1, objItems e.2))).map
          (fun e => (e.1, Json.obj e.2)) := by
    simp [List.map_map]
  simp only [searchBlocks, getCacheData_wf fs h, hmap, Option.bind]
  rw [searchLoop_objs]

/-- Witness for `search_match_iff`: a matcher accepting everything, one
non-empty and one empty file; only the non-empty file's block is emitted. -/
theorem search_match_iff_witness :
    searchBlocks (fun _ _ => true) "q"
      [("b.json", Json.obj [("k", Json.str "v")]), ("e.json", Json.arr [])] =
      some [blockTitle "b.json" ++ blockContents [("k", Json.str "v")]] :=
  search_match_iff (fun _ _ => true) "q" _ (by decide)

/-- Input exhibiting the C4 divergence: an empty-list cached file alongside a
non-empty one. -/
def fsC4 : FileSys :=
  [("a.json", Json.arr []), ("b.json", Json.obj [("k", Json.num 1)])]

/-- C4 (code evaluation at the failing input): `cache rm --force` without
`--empty` passes `lambda x: True` as filter, so the empty-list file reaches
the `json_data[0]` normalization, which raises `IndexError`; the run aborts
having deleted nothing — not even the non-empty `b.json` — though the claim,
the spec and the command's own prompt ("all cached data") say every cache
file is deleted regardless of content. -/
theorem rm_all_crashes_on_empty_list :
    removeCacheRun false true true fsC4 = ([], false, fsC4) := rfl

/-- C5: `cache rm` without `--force`, when the user declines the confirmation
prompt, aborts without deleting anything: no path is unlinked and the
directory is unchanged, in both removal modes. -/
theorem rm_decline_no_deletion (empty : Bool) (fs : FileSys) :
    removeCacheRun empty false false fs = ([], true, fs) := by
  simp [removeCacheRun, applyDeletions_nil]

/-- C6: the inspector normalizes a parsed list to its first element, prints a
title line holding the file path, then one `key value` line per scalar field
in document key order, omitting every dict- or list-valued field; on a
directory of data-model documents each printed block is exactly title plus
those lines. -/
theorem inspect_block_shape :
    (∀ (d : Json) (l : List Json),
      pyNormalize (Json.arr (d :: l)) = some d) ∧
    (∀ p : String, blockTitle p = "file_path    " ++ p ++ "\n") ∧
    (∀ kvs : List (String × Json), blockContents kvs =
      concatAll ((kvs.filter (fun kv => isScalar kv.2)).map
        (fun kv => leftJust kv.1 12 ++ " " ++ pyStr kv.2 ++ "\n"))) ∧
    (∀ fs : FileSys, (∀ e ∈ fs, wfDoc e.2 = true) →
      inspectBlocks fs = some ((fs.filter (fun e => pyTruthy e.2)).map
        (fun e => blockTitle e.1 ++ blockContents (objItems e.2)))) := by
  refine ⟨fun d l => rfl, fun p => ?_, fun kvs => ?_,
    fun fs h => inspectBlocks_wf fs h⟩
  · have hpad : leftJust "file_path" 12 ++ " " = "file_path    " := by decide
    simp only [blockTitle]
    rw [hpad]
  · induction kvs with
    | nil => rfl
    | cons kv rest ih =>
      cases hs : isScalar kv.2 <;>
        simp [blockContents, concatAll, List.filter_cons, hs, ih]

/-- Witness for `inspect_block_shape` (fourth part): a single non-empty
cached file produces its single title-plus-contents block. -/
theorem inspect_block_shape_witness :
    inspectBlocks [("b.json", Json.obj [("k", Json.str "v")])] =
      some [blockTitle "b.json" ++ blockContents [("k", Json.str "v")]] :=
  inspect_block_shape.2.2.2 _ (by decide)

/-- C7: with `--dry-run`, `geocode` prints the location string exactly as
given, and its output does not depend on the geocoder at all (the external
call is never made). -/
theorem geocode_dry_run {α : Type} (g g₂ : String → Except String α)
    (fmt : Bool → α → String) (pretty : Bool) (loc : String) :
    geocodeCmd g fmt true pretty loc = Except.ok loc ∧
    geocodeCmd g fmt true pretty loc = geocodeCmd g₂ fmt true pretty loc :=
  ⟨rfl, rfl⟩

/-- C8: outside dry-run mode, when the geocoder raises the insufficient-
response error, the command exits non-zero carrying the library's message and
prints no coordinate result. -/
theorem geocode_error_exit {α : Type} (g : String → Except String α)
    (fmt : Bool → α → String) (pretty : Bool) (loc msg : String)
    (h : g loc = Except.error msg) :
    geocodeCmd g fmt false pretty loc = Except.error msg := by
  simp [geocodeCmd, h]

/-- Witness for `geocode_error_exit`: a geocoder that always fails. -/
theorem geocode_error_exit_witness :
    geocodeCmd (fun _ => Except.error "insufficient")
      (fun (_ : Bool) (_ : Unit) => "") false false "Atlantis" =
      Except.error "insufficient" :=
  geocode_error_exit _ _ _ _ _ rfl

/-- C9: whenever the default filter accepts a document, the `json_data[0]`
normalization cannot raise; consequently, if `len` is defined on every
document (so the filter itself cannot raise), the default-filter enumeration
used by `cache inspect` and `cache search` finishes without an index
error. -/
theorem default_filter_index_safe :
    (∀ j : Json, defaultFilter j = some true →
      (pyNormalize j).isSome = true) ∧
    (∀ fs : FileSys, (∀ e ∈ fs, (pythonLen e.2).isSome = true) →
      (getCacheData defaultFilter fs).isSome = true) := by
  refine ⟨pyNormalize_isSome_of_filter, fun fs h => ?_⟩
  have hg := cacheGen_ok_of_len fs h
  rcases hcg : cacheGen defaultFilter fs with ⟨l, ok⟩
  have hok : ok = true := by rw [hcg] at hg; exact hg
  subst hok
  simp [getCacheData, hcg]

/-- Witness for `default_filter_index_safe`: a non-empty list document. -/
theorem default_filter_index_safe_witness :
    (pyNormalize (Json.arr [Json.num 1])).isSome = true ∧
    (getCacheData defaultFilter [("a.json", Json.arr [Json.num 1])]).isSome =
      true :=
  ⟨default_filter_index_safe.1 (Json.arr [Json.num 1]) (by decide),
    default_filter_index_safe.2 [("a.json", Json.arr [Json.num 1])]
      (by decide)⟩

/-- C10: `cache inspect` and `cache search` are read-only: neither command
unlinks anything, so the directory after either run is exactly the directory
before it. -/
theorem inspect_search_read_only (fs : FileSys)
    (m : String → String → Bool) (q : String) :
    (inspectCacheRun fs).2 = fs ∧ (searchCacheRun m q fs).2 = fs :=
  ⟨applyDeletions_nil fs, applyDeletions_nil fs⟩

end Nomad
